import Mathlib

/-!
Shallow embedding of the `dirt` DNS codec and iterative resolver
(`src/convert/*.rs`, `src/types/*.rs`, `src/main.rs`), together with
theorems settling the specification claims about it.

Rust `String` values are modelled by their UTF-8 byte sequences
(`List Nat`, each element < 256); all multi-byte integers are big-endian
and are modelled as `Nat` with explicit `% 2^w` arithmetic where the Rust
code truncates (`as u8`).  A Rust panic (out-of-bounds slice, `panic!`
macro, failed assert) is modelled by a distinguished `panicked` outcome,
and the decoders' fallibility by error inductives mirroring the crates'
`thiserror` enums.
-/

deriving instance DecidableEq for Except

namespace Dirt

/-- Model of `std::io::Cursor<&[u8]>`: a byte buffer plus a read position.
`seek(SeekFrom::Start(p))` is modelled by replacing `pos` (it never fails
for an in-memory cursor). -/
structure Cursor where
  data : List Nat
  pos : Nat
deriving Repr, DecidableEq

/-- `byteorder::ReadBytesExt::read_u8`: one byte at `pos`, or an
`UnexpectedEof` IO error (`none`) past the end of the buffer. -/
def Cursor.readU8 (c : Cursor) : Option (Nat × Cursor) :=
  match c.data.get? c.pos with
  | some b => some (b, ⟨c.data, c.pos + 1⟩)
  | none => none

/-- `Read::read_exact` into an `n`-byte destination: succeeds iff `n`
bytes remain (a 0-byte read always succeeds), returning exactly the next
`n` bytes. -/
def Cursor.readExact (c : Cursor) (n : Nat) : Option (List Nat × Cursor) :=
  if n = 0 then some ([], c)
  else if c.pos + n ≤ c.data.length then
    some ((c.data.drop c.pos).take n, ⟨c.data, c.pos + n⟩)
  else none

/-- `read_u16::<NetworkEndian>`: two bytes, big-endian. -/
def Cursor.readU16 (c : Cursor) : Option (Nat × Cursor) :=
  match c.readExact 2 with
  | some ([b0, b1], c1) => some (b0 * 256 + b1, c1)
  | _ => none

/-- `read_u32::<NetworkEndian>`: four bytes, big-endian. -/
def Cursor.readU32 (c : Cursor) : Option (Nat × Cursor) :=
  match c.readExact 4 with
  | some ([b0, b1, b2, b3], c1) => some (((b0 * 256 + b1) * 256 + b2) * 256 + b3, c1)
  | _ => none

/-- Big-endian bytes of a `u16` value (`to_be_bytes`). -/
def u16be (v : Nat) : List Nat := [v / 256 % 256, v % 256]

/-- Outcome of running a fallible Rust function that may also panic.
`panicked` models a Rust panic / process abort; `nofuel` is a model
artifact marking that the recursion/loop budget of the embedding was
exhausted (the Rust code would simply keep running). -/
inductive PRes (ε α : Type) where
  | ok (val : α)
  | err (e : ε)
  | panicked
  | nofuel
deriving Repr, DecidableEq

/-- Validity of a byte sequence as UTF-8, as checked by Rust's
`std::str::from_utf8` (RFC 3629: no overlong forms, no surrogates,
max U+10FFFF). -/
def validUtf8 : List Nat → Bool
  | [] => true
  | b :: rest =>
    if b < 0x80 then validUtf8 rest
    else if 0xC2 ≤ b ∧ b ≤ 0xDF then
      match rest with
      | c1 :: r => decide (0x80 ≤ c1 ∧ c1 ≤ 0xBF) && validUtf8 r
      | [] => false
    else if 0xE0 ≤ b ∧ b ≤ 0xEF then
      match rest with
      | c1 :: c2 :: r =>
        let lo1 := if b = 0xE0 then 0xA0 else 0x80
        let hi1 := if b = 0xED then 0x9F else 0xBF
        decide (lo1 ≤ c1 ∧ c1 ≤ hi1) && decide (0x80 ≤ c2 ∧ c2 ≤ 0xBF) && validUtf8 r
      | _ => false
    else if 0xF0 ≤ b ∧ b ≤ 0xF4 then
      match rest with
      | c1 :: c2 :: c3 :: r =>
        let lo1 := if b = 0xF0 then 0x90 else 0x80
        let hi1 := if b = 0xF4 then 0x8F else 0xBF
        decide (lo1 ≤ c1 ∧ c1 ≤ hi1) && decide (0x80 ≤ c2 ∧ c2 ≤ 0xBF) &&
          decide (0x80 ≤ c3 ∧ c3 ≤ 0xBF) && validUtf8 r
      | _ => false
    else false

/-- `types::dname::Label`: one segment of a domain name, a Rust `String`
modelled by its UTF-8 bytes. -/
structure Label where
  bytes : List Nat
deriving Repr, DecidableEq

/-- `Label::MAX_LABEL_SIZE`: the fixed size of the decoder's label
buffer. -/
def Label.MAX_LABEL_SIZE : Nat := 63

/-- `convert/label.rs` `Label::into_bytes`: prepend the byte length,
truncated by `as u8` (`len % 256`), to the label's raw bytes.  Note the
source performs no length check at all. -/
def Label.into_bytes (l : Label) : List Nat :=
  (l.bytes.length % 256) :: l.bytes

/-- Errors of `types::dname::label::Error`. -/
inductive LabelErr where
  /-- `Error::Io`: `read_exact` hit end of buffer. -/
  | io
  /-- `Error::Convert`: the bytes are not valid UTF-8. -/
  | convert
deriving Repr, DecidableEq

/-- `convert/label.rs` `Label::read_label`: read exactly `dest.len()`
bytes, then require them to be valid text. -/
def Label.read_label (c : Cursor) (size : Nat) : Except LabelErr (Label × Cursor) :=
  match c.readExact size with
  | none => .error .io
  | some (lb, c1) =>
    if validUtf8 lb then .ok (⟨lb⟩, c1) else .error .convert

/-- Errors of `types::dname::Error`. -/
inductive DNameErr where
  /-- `Error::Label`: wraps a label decoding error. -/
  | label (e : LabelErr)
  /-- `Error::Io`: a direct IO failure (`read_u8` at end of buffer). -/
  | io
deriving Repr, DecidableEq

/-- `types::dname::DomainName`: an ordered list of labels. -/
structure DomainName where
  labels : List Label
deriving Repr, DecidableEq

/-- `DomainName::TERMINATOR`. -/
def DomainName.TERMINATOR : Nat := 0

/-- `DomainName::is_compressed`: the top two bits of the length octet are
both set. -/
def DomainName.is_compressed (size : Nat) : Bool :=
  size &&& 192 == 192

/-- `convert/dname.rs` `DomainName::into_bytes`: each label
length-prefixed, then a zero terminator octet. -/
def DomainName.into_bytes (d : DomainName) : List Nat :=
  (d.labels.map Label.into_bytes).flatten ++ [DomainName.TERMINATOR]

/-- The label-reading loop of `convert/dname.rs` `DomainName::from_bytes`,
with the accumulated labels made explicit and one unit of fuel consumed
per loop iteration and per compression-pointer recursion.  The arm order
follows the Rust `match`: the `is_compressed` guard, then the terminator,
then a plain length, where taking `&mut label_bytes_buffer[..size]` with
`size > 63` is an out-of-bounds slice of the fixed 63-byte buffer, i.e. a
panic.  Following a pointer saves the position after the two pointer
octets, seeks to the 14-bit target, decodes a fresh name there, restores
the position and stops. -/
def DomainName.fromBytesLoop : Nat → Cursor → List Label → PRes DNameErr (List Label × Cursor)
  | 0, _, _ => .nofuel
  | fuel + 1, c, acc =>
    match c.readU8 with
    | none => .err .io
    | some (size, c1) =>
      if DomainName.is_compressed size then
        match c1.readU8 with
        | none => .err .io
        | some (second, c2) =>
          match DomainName.fromBytesLoop fuel ⟨c2.data, (size &&& 63) * 256 + second⟩ [] with
          | .ok (lbls, _) => .ok (acc ++ lbls, c2)
          | .err e => .err e
          | .panicked => .panicked
          | .nofuel => .nofuel
      else if size = DomainName.TERMINATOR then
        .ok (acc, c1)
      else if Label.MAX_LABEL_SIZE < size then
        .panicked
      else
        match Label.read_label c1 size with
        | .error e => .err (.label e)
        | .ok (l, c2) => DomainName.fromBytesLoop fuel c2 (acc ++ [l])

/-- `convert/dname.rs` `DomainName::from_bytes`. -/
def DomainName.from_bytes (fuel : Nat) (c : Cursor) : PRes DNameErr (DomainName × Cursor) :=
  match DomainName.fromBytesLoop fuel c [] with
  | .ok (lbls, c1) => .ok (⟨lbls⟩, c1)
  | .err e => .err e
  | .panicked => .panicked
  | .nofuel => .nofuel

/-- `String::from(DomainName)`: the labels' text joined with `"."`
(byte 46); the empty label list gives the empty string. -/
def DomainName.textBytes (d : DomainName) : List Nat :=
  List.intercalate [46] (d.labels.map Label.bytes)

/-- `types/header.rs` `OpCode` (4-bit query kind). -/
inductive OpCode where
  | Query
  | InverseQuery
  | Status
  | Reserved
deriving Repr, DecidableEq

/-- `num_enum::IntoPrimitive` discriminants of `OpCode`. -/
def OpCode.toNat : OpCode → Nat
  | .Query => 0
  | .InverseQuery => 1
  | .Status => 2
  | .Reserved => 3

/-- `types/header.rs` `ResponseCode` (4-bit RCODE). -/
inductive ResponseCode where
  | NoError
  | FormErr
  | ServFail
  | NxDomain
  | NotImp
  | Refused
  | Reserved
deriving Repr, DecidableEq

/-- `num_enum::IntoPrimitive` discriminants of `ResponseCode`. -/
def ResponseCode.toNat : ResponseCode → Nat
  | .NoError => 0
  | .FormErr => 1
  | .ServFail => 2
  | .NxDomain => 3
  | .NotImp => 4
  | .Refused => 5
  | .Reserved => 6

/-- Errors of `types/header.rs` `Error`.  (In `convert/header.rs` the two
conversion variants reach `Header::from_bytes` wrapped inside a custom
`std::io::Error`; they are kept distinguishable here.) -/
inductive HeaderErr where
  /-- `Error::Io`: a genuine end-of-buffer read failure. -/
  | io
  /-- `Error::OpCode(v)`: invalid opcode primitive. -/
  | opCode (v : Nat)
  /-- `Error::ResponseCode(v)`: invalid response-code primitive. -/
  | responseCode (v : Nat)
deriving Repr, DecidableEq

/-- `OpCode::try_from(u8)`: 0-2 named, 3..=15 `Reserved`, otherwise an
error carrying the value. -/
def OpCode.tryFrom (v : Nat) : Except HeaderErr OpCode :=
  if v = 0 then .ok .Query
  else if v = 1 then .ok .InverseQuery
  else if v = 2 then .ok .Status
  else if 3 ≤ v ∧ v ≤ 15 then .ok .Reserved
  else .error (.opCode v)

/-- `ResponseCode::try_from(u8)`: 0-5 named, 6..=15 `Reserved`, otherwise
an error carrying the value. -/
def ResponseCode.tryFrom (v : Nat) : Except HeaderErr ResponseCode :=
  if v = 0 then .ok .NoError
  else if v = 1 then .ok .FormErr
  else if v = 2 then .ok .ServFail
  else if v = 3 then .ok .NxDomain
  else if v = 4 then .ok .NotImp
  else if v = 5 then .ok .Refused
  else if 6 ≤ v ∧ v ≤ 15 then .ok .Reserved
  else .error (.responseCode v)

/-- `types/header.rs` `HeaderFlags`: the unpacked 16-bit flags word. -/
structure HeaderFlags where
  query_response : Bool
  op_code : OpCode
  auth_answer : Bool
  truncated : Bool
  recursion_desired : Bool
  recursion_avail : Bool
  response_code : ResponseCode
deriving Repr, DecidableEq

/-- `HeaderFlags::default()`. -/
def HeaderFlags.default : HeaderFlags :=
  ⟨false, .Query, false, false, false, false, .NoError⟩

/-- `convert/header.rs` `HeaderFlags::as_u16`: big-endian packing
`QR(1) OPCODE(4) AA(1) TC(1) RD(1) | RA(1) Z(3)=0 RCODE(4)`.  The Rust
`|` of disjoint bit ranges is addition here. -/
def HeaderFlags.as_u16 (f : HeaderFlags) : Nat :=
  let higher := (if f.query_response then 1 else 0) * 128 + f.op_code.toNat * 8 +
    (if f.auth_answer then 1 else 0) * 4 + (if f.truncated then 1 else 0) * 2 +
    (if f.recursion_desired then 1 else 0)
  let lower := (if f.recursion_avail then 1 else 0) * 128 + f.response_code.toNat
  higher * 256 + lower

/-- `convert/header.rs` `HeaderFlags::from_u16`: unpack the two
big-endian bytes.  Bit masks become `/` and `% `: `(h >> 7) & 1` is
`h / 128 % 2`, `(h & 0b0111_1000) >> 3` is `h % 128 / 8`, and the
response-code conversion receives `lower & 0b0111_1111`, i.e. the three
Z bits together with the 4-bit RCODE. -/
def HeaderFlags.from_u16 (v : Nat) : Except HeaderErr HeaderFlags :=
  let higher := v / 256 % 256
  let lower := v % 256
  match OpCode.tryFrom (higher % 128 / 8) with
  | .error e => .error e
  | .ok op =>
    match ResponseCode.tryFrom (lower % 128) with
    | .error e => .error e
    | .ok rc =>
      .ok ⟨higher / 128 % 2 != 0, op, higher / 4 % 2 != 0, higher / 2 % 2 != 0,
        higher % 2 != 0, lower / 128 % 2 != 0, rc⟩

/-- `types/header.rs` `Header`. -/
structure Header where
  id : Nat
  flags : HeaderFlags
  num_questions : Nat
  num_answers : Nat
  num_authorities : Nat
  num_additionals : Nat
deriving Repr, DecidableEq

/-- `convert/header.rs` `Header::into_bytes`: six big-endian `u16`
fields. -/
def Header.into_bytes (h : Header) : List Nat :=
  u16be h.id ++ u16be h.flags.as_u16 ++ u16be h.num_questions ++ u16be h.num_answers ++
    u16be h.num_authorities ++ u16be h.num_additionals

/-- `convert/header.rs` `Header::from_bytes`: `read_u16_into` fills six
`u16`s from 12 bytes (EOF if fewer remain), then the flags word is
converted, its failure surfacing as a wrapped error. -/
def Header.from_bytes (c : Cursor) : Except HeaderErr (Header × Cursor) :=
  match c.readExact 12 with
  | none => .error .io
  | some (b, c1) =>
    let id := b.getD 0 0 * 256 + b.getD 1 0
    let flagsWord := b.getD 2 0 * 256 + b.getD 3 0
    match HeaderFlags.from_u16 flagsWord with
    | .error e => .error e
    | .ok flags =>
      .ok (⟨id, flags, b.getD 4 0 * 256 + b.getD 5 0, b.getD 6 0 * 256 + b.getD 7 0,
        b.getD 8 0 * 256 + b.getD 9 0, b.getD 10 0 * 256 + b.getD 11 0⟩, c1)

/-- `types/header.rs` `Header::gen_query_header(0, authoritative,
recursion_desired)` as used by `Message::new_query`: a random id
(taken as a parameter here), opcode `Query` (`set_op_code(0)` cannot
fail), one question and no records. -/
def Header.gen_query_header (id : Nat) (authoritative recursion_desired : Bool) : Header :=
  ⟨id, ⟨false, .Query, authoritative, false, recursion_desired, false, .NoError⟩, 1, 0, 0, 0⟩

/-- `qtype.rs` `QType`: the recognized 16-bit TYPE/QTYPE codes. -/
inductive QType where
  | A | NS | MD | MF | CNAME | SOA | MB | MG | MR | NULL | WKS | PTR
  | HINFO | MINFO | MX | TXT | AAAA | AXFR | MAILB | MAILA | ANY
deriving Repr, DecidableEq

/-- `num_enum::IntoPrimitive` discriminants of `QType`. -/
def QType.toNat : QType → Nat
  | .A => 1 | .NS => 2 | .MD => 3 | .MF => 4 | .CNAME => 5 | .SOA => 6
  | .MB => 7 | .MG => 8 | .MR => 9 | .NULL => 10 | .WKS => 11 | .PTR => 12
  | .HINFO => 13 | .MINFO => 14 | .MX => 15 | .TXT => 16 | .AAAA => 28
  | .AXFR => 252 | .MAILB => 253 | .MAILA => 254 | .ANY => 255

/-- `num_enum::TryFromPrimitive` for `QType` (`none` is the
`TryFromPrimitiveError` carrying the value). -/
def QType.fromNat (v : Nat) : Option QType :=
  if v = 1 then some .A else if v = 2 then some .NS
  else if v = 3 then some .MD else if v = 4 then some .MF
  else if v = 5 then some .CNAME else if v = 6 then some .SOA
  else if v = 7 then some .MB else if v = 8 then some .MG
  else if v = 9 then some .MR else if v = 10 then some .NULL
  else if v = 11 then some .WKS else if v = 12 then some .PTR
  else if v = 13 then some .HINFO else if v = 14 then some .MINFO
  else if v = 15 then some .MX else if v = 16 then some .TXT
  else if v = 28 then some .AAAA else if v = 252 then some .AXFR
  else if v = 253 then some .MAILB else if v = 254 then some .MAILA
  else if v = 255 then some .ANY else none

/-- `qclass.rs` `QClass`: the recognized 16-bit CLASS/QCLASS codes. -/
inductive QClass where
  | IN | CS | CH | HS | ALL
deriving Repr, DecidableEq

/-- `num_enum::IntoPrimitive` discriminants of `QClass`. -/
def QClass.toNat : QClass → Nat
  | .IN => 1 | .CS => 2 | .CH => 3 | .HS => 4 | .ALL => 255

/-- `num_enum::TryFromPrimitive` for `QClass`. -/
def QClass.fromNat (v : Nat) : Option QClass :=
  if v = 1 then some .IN else if v = 2 then some .CS
  else if v = 3 then some .CH else if v = 4 then some .HS
  else if v = 255 then some .ALL else none

/-- `types/question.rs` `Question`. -/
structure Question where
  qname : DomainName
  qtype : QType
  qclass : QClass
deriving Repr, DecidableEq

/-- Errors of `types/question.rs` `Error`. -/
inductive QuestionErr where
  /-- `Error::Io`. -/
  | io
  /-- `Error::Name`: wrapped domain-name decode error. -/
  | name (e : DNameErr)
  /-- `Error::Type`: unrecognized QTYPE primitive. -/
  | qtype (v : Nat)
  /-- `Error::Class`: unrecognized QCLASS primitive. -/
  | qclass (v : Nat)
deriving Repr, DecidableEq

/-- `convert/question.rs` `Question::into_bytes`: name bytes, then QTYPE
and QCLASS as big-endian `u16`. -/
def Question.into_bytes (q : Question) : List Nat :=
  q.qname.into_bytes ++ u16be q.qtype.toNat ++ u16be q.qclass.toNat

/-- `convert/question.rs` `Question::from_bytes`. -/
def Question.from_bytes (fuel : Nat) (c : Cursor) : PRes QuestionErr (Question × Cursor) :=
  match DomainName.from_bytes fuel c with
  | .err e => .err (.name e)
  | .panicked => .panicked
  | .nofuel => .nofuel
  | .ok (qname, c1) =>
    match c1.readU16 with
    | none => .err .io
    | some (tv, c2) =>
      match QType.fromNat tv with
      | none => .err (.qtype tv)
      | some qtype =>
        match c2.readU16 with
        | none => .err .io
        | some (cv, c3) =>
          match QClass.fromNat cv with
          | none => .err (.qclass cv)
          | some qclass => .ok (⟨qname, qtype, qclass⟩, c3)

/-- `types/record.rs` `Record`: a resource record with raw rdata bytes. -/
structure Record where
  name : DomainName
  qtype : QType
  class_ : QClass
  time_to_live : Nat
  rdata : List Nat
deriving Repr, DecidableEq

/-- Errors of `types/record.rs` `Error` (same shape as the question's). -/
inductive RecordErr where
  /-- `Error::Io`. -/
  | io
  /-- `Error::Name`: wrapped domain-name decode error. -/
  | name (e : DNameErr)
  /-- `Error::Type`: unrecognized QTYPE primitive. -/
  | qtype (v : Nat)
  /-- `Error::Class`: unrecognized QCLASS primitive. -/
  | qclass (v : Nat)
deriving Repr, DecidableEq

/-- `convert/record.rs` `Record::from_bytes`: name, type, class, TTL and
declared rdata length, then the rdata, interpreted by type exactly as the
source does: `NS`/`CNAME` decode a (possibly compressed) `DomainName`
from the current position and store `String::from(name).into_bytes()`;
`A` reads `data_length` bytes and takes `data[..4]`, an out-of-bounds
slice (panic) whenever fewer than 4 bytes were declared; every other
type (including `AAAA`) keeps the declared-length blob unchecked. -/
def Record.from_bytes (fuel : Nat) (c : Cursor) : PRes RecordErr (Record × Cursor) :=
  match DomainName.from_bytes fuel c with
  | .err e => .err (.name e)
  | .panicked => .panicked
  | .nofuel => .nofuel
  | .ok (qname, c1) =>
    match c1.readU16 with
    | none => .err .io
    | some (tv, c2) =>
      match QType.fromNat tv with
      | none => .err (.qtype tv)
      | some qtype =>
        match c2.readU16 with
        | none => .err .io
        | some (cv, c3) =>
          match QClass.fromNat cv with
          | none => .err (.qclass cv)
          | some qclass =>
            match c3.readU32 with
            | none => .err .io
            | some (ttl, c4) =>
              match c4.readU16 with
              | none => .err .io
              | some (data_length, c5) =>
                match qtype with
                | .NS | .CNAME =>
                  match DomainName.from_bytes fuel c5 with
                  | .err e => .err (.name e)
                  | .panicked => .panicked
                  | .nofuel => .nofuel
                  | .ok (dn, c6) =>
                    .ok (⟨qname, qtype, qclass, ttl, dn.textBytes⟩, c6)
                | .A =>
                  match c5.readExact data_length with
                  | none => .err .io
                  | some (data, c6) =>
                    if data.length < 4 then .panicked
                    else .ok (⟨qname, qtype, qclass, ttl, data.take 4⟩, c6)
                | _ =>
                  match c5.readExact data_length with
                  | none => .err .io
                  | some (data, c6) =>
                    .ok (⟨qname, qtype, qclass, ttl, data⟩, c6)

/-- Errors of `types/message.rs` `Error`. -/
inductive MessageErr where
  /-- `Error::Io`. -/
  | io
  /-- `Error::Header`. -/
  | header (e : HeaderErr)
  /-- `Error::Question`. -/
  | question (e : QuestionErr)
  /-- `Error::Record`. -/
  | record (e : RecordErr)
deriving Repr, DecidableEq

/-- `types/message.rs` `Message`. -/
structure Message where
  header : Header
  questions : List Question
  answers : List Record
  authorities : List Record
  additionals : List Record
deriving Repr, DecidableEq

/-- `types/message.rs` `MsgSection`. -/
inductive MsgSection where
  | Answers
  | Authorities
  | Additionals
deriving Repr, DecidableEq

/-- `Message::get_records`. -/
def Message.get_records (m : Message) : MsgSection → List Record
  | .Answers => m.answers
  | .Authorities => m.authorities
  | .Additionals => m.additionals

/-- `Message::get_record_by_type_from`: the first record of the
requested type in the section, if any. -/
def Message.get_record_by_type_from (m : Message) (qtype : QType) (section_ : MsgSection) :
    Option Record :=
  (m.get_records section_).find? (fun rec => rec.qtype == qtype)

/-- `types/message.rs` `Message::new_query`: a fresh query header (random
id taken as a parameter) and a single `IN` question.  `DomainName::new`
splits the caller's string on `'.'`; the resulting name is taken directly
here. -/
def Message.new_query (id : Nat) (qname : DomainName) (record_type : QType)
    (authoritative recursion_desired : Bool) : Message :=
  ⟨Header.gen_query_header id authoritative recursion_desired,
    [⟨qname, record_type, .IN⟩], [], [], []⟩

/-- `convert/message.rs` `Message::query_into_bytes`: asserts the message
holds exactly one question and no records (`none` models the assert
panic), then serializes header and questions. -/
def Message.query_into_bytes (m : Message) : Option (List Nat) :=
  if m.questions.length = 1 ∧ m.answers.length = 0 ∧ m.authorities.length = 0 ∧
      m.additionals.length = 0 then
    some (m.header.into_bytes ++ (m.questions.map Question.into_bytes).flatten)
  else none

/-- The `repeat_with(..).take(n).collect::<Result<Vec<_>>>()` pattern of
`Message::from_bytes` for questions: `n` sequential parses, the first
failure aborting. -/
def Message.parseQuestions (fuel : Nat) : Nat → Cursor → PRes QuestionErr (List Question × Cursor)
  | 0, c => .ok ([], c)
  | n + 1, c =>
    match Question.from_bytes fuel c with
    | .err e => .err e
    | .panicked => .panicked
    | .nofuel => .nofuel
    | .ok (q, c1) =>
      match Message.parseQuestions fuel n c1 with
      | .err e => .err e
      | .panicked => .panicked
      | .nofuel => .nofuel
      | .ok (qs, c2) => .ok (q :: qs, c2)

/-- The same sequential-collect pattern for records. -/
def Message.parseRecords (fuel : Nat) : Nat → Cursor → PRes RecordErr (List Record × Cursor)
  | 0, c => .ok ([], c)
  | n + 1, c =>
    match Record.from_bytes fuel c with
    | .err e => .err e
    | .panicked => .panicked
    | .nofuel => .nofuel
    | .ok (r, c1) =>
      match Message.parseRecords fuel n c1 with
      | .err e => .err e
      | .panicked => .panicked
      | .nofuel => .nofuel
      | .ok (rs, c2) => .ok (r :: rs, c2)

/-- `convert/message.rs` `Message::from_bytes`: header, then exactly
`num_questions` questions and `num_answers`/`num_authorities`/
`num_additionals` records in that order; the first error aborts the
whole decode. -/
def Message.from_bytes (fuel : Nat) (c : Cursor) : PRes MessageErr (Message × Cursor) :=
  match Header.from_bytes c with
  | .error e => .err (.header e)
  | .ok (header, c1) =>
    match Message.parseQuestions fuel header.num_questions c1 with
    | .err e => .err (.question e)
    | .panicked => .panicked
    | .nofuel => .nofuel
    | .ok (questions, c2) =>
      match Message.parseRecords fuel header.num_answers c2 with
      | .err e => .err (.record e)
      | .panicked => .panicked
      | .nofuel => .nofuel
      | .ok (answers, c3) =>
        match Message.parseRecords fuel header.num_authorities c3 with
        | .err e => .err (.record e)
        | .panicked => .panicked
        | .nofuel => .nofuel
        | .ok (authorities, c4) =>
          match Message.parseRecords fuel header.num_additionals c4 with
          | .err e => .err (.record e)
          | .panicked => .panicked
          | .nofuel => .nofuel
          | .ok (additionals, c5) =>
            .ok (⟨header, questions, answers, authorities, additionals⟩, c5)

/-- A buffer-underrun ("Truncated"-class) decode error: the IO
(`UnexpectedEof`) leaves of the message error hierarchy. -/
def MessageErr.isUnderrun : MessageErr → Bool
  | .io => true
  | .header .io => true
  | .question .io => true
  | .question (.name .io) => true
  | .question (.name (.label .io)) => true
  | .record .io => true
  | .record (.name .io) => true
  | .record (.name (.label .io)) => true
  | _ => false

/-- The result of a message decode is a buffer-underrun error (in
particular it is neither a success, nor a panic, nor fuel
exhaustion). -/
def isUnderrunResult : PRes MessageErr (Message × Cursor) → Bool
  | .err e => e.isUnderrun
  | _ => false

/-- The decision taken by one iteration of `main.rs` `resolve` after a
response has been decoded; each constructor records what the source does
on that branch. -/
inductive ResolveAction where
  /-- Answers-section record of the target type: return
  `rr.data_as_ip_addr()` (terminal). -/
  | answer (rr : Record)
  /-- Additionals-section record of the target type: set
  `nameserver = rr.data_as_ip_addr()` and loop. -/
  | adopt (rr : Record)
  /-- Authorities-section NS record: set
  `nameserver = resolve(rr.data_as_str(), rt)?` and loop; `rt` is the
  query type the nested call receives. -/
  | resolveNS (rr : Record) (rt : QType)
  /-- Answers-section CNAME record: return
  `resolve(rr.data_as_str(), rt)` (terminal, starts from the root
  hint again); `rt` is the query type the nested call receives. -/
  | resolveCname (rr : Record) (rt : QType)
  /-- No section yields a usable record: the source executes a
  `panic!` macro, aborting the process. -/
  | noUsablePath
deriving Repr, DecidableEq

/-- The response-inspection chain of `main.rs` `resolve` (lines 92-140),
in source order; both recursive calls receive the caller's own
`record_type`. -/
def resolveStep (record_type : QType) (resp : Message) : ResolveAction :=
  match resp.get_record_by_type_from record_type .Answers with
  | some domain_ip_rr => .answer domain_ip_rr
  | none =>
    match resp.get_record_by_type_from record_type .Additionals with
    | some ns_ip_rr => .adopt ns_ip_rr
    | none =>
      match resp.get_record_by_type_from .NS .Authorities with
      | some ns_dname_rr => .resolveNS ns_dname_rr record_type
      | none =>
        match resp.get_record_by_type_from .CNAME .Answers with
        | some cname_rr => .resolveCname cname_rr record_type
        | none => .noUsablePath

/-! Concrete inputs used by the claim theorems. -/

/-- An all-zero response header (its fields are irrelevant to the
resolver's section inspection). -/
def zeroHeader : Header := ⟨0, HeaderFlags.default, 0, 0, 0, 0⟩

/-- A response whose only record is a TXT answer: no answer of the
target type, no additional address, no authority NS, no CNAME. -/
def noPathResponse : Message := ⟨zeroHeader, [], [⟨⟨[]⟩, .TXT, .IN, 0, [104, 105]⟩], [], []⟩

/-- An NS record for the authorities section (rdata is the decoded
nameserver name's text). -/
def nsAuthorityRecord : Record := ⟨⟨[⟨[99, 111, 109]⟩]⟩, .NS, .IN, 0, [110, 115]⟩

/-- A response carrying only an Authorities-section NS record. -/
def nsReferralResponse : Message := ⟨zeroHeader, [], [], [nsAuthorityRecord], []⟩

/-- An A record answering `"a"` with `93.184.216.34`. -/
def aAnswerRecord : Record := ⟨⟨[⟨[97]⟩]⟩, .A, .IN, 0, [93, 184, 216, 34]⟩

/-- A response whose Answers section holds a single A record. -/
def aAnswerResponse : Message := ⟨zeroHeader, [], [aAnswerRecord], [], []⟩

/-- Wire bytes of an A record (root name) whose declared rdata length is
only 2: name `00`, type `00 01`, class `00 01`, ttl `00 00 00 00`,
rdlength `00 02`, rdata `09 09`. -/
def aShortRecordBytes : List Nat := [0, 0, 1, 0, 1, 0, 0, 0, 0, 0, 2, 9, 9]

/-- Wire bytes of an AAAA record whose declared rdata length is 5
(not 16): the decoder takes the blob as-is. -/
def aaaaShortRecordBytes : List Nat := [0, 0, 28, 0, 1, 0, 0, 0, 0, 0, 5, 1, 2, 3, 4, 5]

/-- Wire bytes of an NS record whose rdata is the encoded name `"ns"`. -/
def nsRecordBytes : List Nat := [0, 0, 2, 0, 1, 0, 0, 0, 0, 0, 4, 2, 110, 115, 0]

/-- Wire bytes of a well-formed A record with rdata `07 07 07 07`. -/
def aRecordBytes : List Nat := [0, 0, 1, 0, 1, 0, 0, 0, 0, 0, 4, 7, 7, 7, 7]

/-- The encoded bytes of the query `new_query(7, root name, A, false,
true)`: the root name (a single empty label, admitted by the data model)
encodes to `00 00`, giving the 18-byte message
`header(12) ++ 00 00 ++ qtype(00 01) ++ qclass(00 01)`. -/
def rootQueryBytes : List Nat := [0, 7, 1, 0, 0, 1, 0, 0, 0, 0, 0, 0, 0, 0, 0, 1, 0, 1]

/-! Helper lemmas shared by the claim theorems. -/

theorem HeaderFlags.from_u16_as_u16 (f : HeaderFlags) :
    HeaderFlags.from_u16 f.as_u16 = Except.ok f := by
  obtain ⟨qr, op, aa, tc, rd, ra, rc⟩ := f
  cases qr <;> cases aa <;> cases tc <;> cases rd <;> cases ra <;> cases op <;> cases rc <;> rfl

theorem HeaderFlags.as_u16_lt (f : HeaderFlags) : f.as_u16 < 65536 := by
  obtain ⟨qr, op, aa, tc, rd, ra, rc⟩ := f
  cases qr <;> cases aa <;> cases tc <;> cases rd <;> cases ra <;> cases op <;> cases rc <;> decide

theorem OpCode.tryFrom_ok_of_le (x : Nat) (h : x ≤ 15) : ∃ o, OpCode.tryFrom x = Except.ok o := by
  unfold OpCode.tryFrom
  split_ifs with h1 h2 h3 h4
  · exact ⟨_, rfl⟩
  · exact ⟨_, rfl⟩
  · exact ⟨_, rfl⟩
  · exact ⟨_, rfl⟩
  · omega

theorem ResponseCode.tryFrom_ok_iff (y : Nat) :
    (∃ r, ResponseCode.tryFrom y = Except.ok r) ↔ y ≤ 15 := by
  unfold ResponseCode.tryFrom
  split_ifs with h1 h2 h3 h4 h5 h6 h7 <;>
    simp only [Except.ok.injEq, exists_eq', true_iff, reduceCtorEq, exists_false, false_iff] <;>
    omega

/-- C5: for every header-flags value (QR and AA/TC/RD/RA booleans, any of
the four `OpCode` variants — wire values 0..3 — and any of the seven
`ResponseCode` variants — wire values 0..6), unpacking the packed 16-bit
flags word returns the original flags:
`HeaderFlags::from_u16(flags.as_u16()) == flags`. -/
theorem c5_flags_roundtrip (flags : HeaderFlags) :
    HeaderFlags.from_u16 flags.as_u16 = Except.ok flags :=
  HeaderFlags.from_u16_as_u16 flags

/-- C10: `HeaderFlags::from_u16` succeeds if and only if the three
reserved Z bits (bits 4-6) of the 16-bit word are zero: the decoder
feeds `lower & 0b0111_1111` (Z plus RCODE) into the response-code
conversion, which rejects every value above 15. -/
theorem c10_z_bits_gate (v : Nat) (hv : v < 65536) :
    (∃ flags, HeaderFlags.from_u16 v = Except.ok flags) ↔ v / 16 % 8 = 0 := by
  simp only [HeaderFlags.from_u16]
  obtain ⟨o, ho⟩ := OpCode.tryFrom_ok_of_le (v / 256 % 256 % 128 / 8) (by omega)
  rw [ho]
  rcases hrc : ResponseCode.tryFrom (v % 256 % 128) with r | e
  · have h15 : ¬(v % 256 % 128 ≤ 15) := by
      intro hle
      obtain ⟨r', hr'⟩ := (ResponseCode.tryFrom_ok_iff _).mpr hle
      rw [hrc] at hr'
      exact absurd hr' (by simp)
    simp only [hrc]
    constructor
    · rintro ⟨flags, hf⟩
      exact absurd hf (by simp)
    · intro hz
      exact absurd (by omega : v % 256 % 128 ≤ 15) h15
  · have h15 : v % 256 % 128 ≤ 15 := (ResponseCode.tryFrom_ok_iff _).mp ⟨e, hrc⟩
    simp only [hrc]
    constructor
    · intro _
      omega
    · intro _
      exact ⟨_, rfl⟩

/-- Witness for C10 at the concrete word `0x8180` (a typical response
flags value, Z bits zero). -/
theorem c10_witness :
    (∃ flags, HeaderFlags.from_u16 0x8180 = Except.ok flags) ↔ 0x8180 / 16 % 8 = 0 :=
  c10_z_bits_gate 0x8180 (by decide)

/-- C8 counterexample: opcode wire value 4 and RCODE wire value 7 both
decode to `Reserved`, but re-encoding `Reserved` yields the canonical
values 3 and 6, so the numeric wire value is NOT preserved as the claim
states. -/
theorem c8_counterexample :
    OpCode.tryFrom 4 = Except.ok OpCode.Reserved ∧ OpCode.toNat OpCode.Reserved = 3 ∧ 3 ≠ 4 ∧
    ResponseCode.tryFrom 7 = Except.ok ResponseCode.Reserved ∧
    ResponseCode.toNat ResponseCode.Reserved = 6 ∧ 6 ≠ 7 := by
  decide

/-- C8 amended: every 4-bit opcode value in 3..15 and RCODE value in
6..15 decodes to the `Reserved` variant rather than erroring, and
re-encoding after the decode never fails — but it produces the canonical
`Reserved` discriminant (3 for opcode, 6 for RCODE), so the numeric wire
value survives the round trip only for 3 (resp. 6). -/
theorem c8_amended : ∀ v, v < 16 →
    (3 ≤ v → OpCode.tryFrom v = Except.ok OpCode.Reserved ∧
      (OpCode.tryFrom v).map OpCode.toNat = Except.ok 3) ∧
    (6 ≤ v → ResponseCode.tryFrom v = Except.ok ResponseCode.Reserved ∧
      (ResponseCode.tryFrom v).map ResponseCode.toNat = Except.ok 6) := by
  decide

/-- Witness for C8 at the concrete wire value 4 (opcode) and 7
(RCODE). -/
theorem c8_witness :
    (OpCode.tryFrom 4 = Except.ok OpCode.Reserved ∧
      (OpCode.tryFrom 4).map OpCode.toNat = Except.ok 3) ∧
    (ResponseCode.tryFrom 7 = Except.ok ResponseCode.Reserved ∧
      (ResponseCode.tryFrom 7).map ResponseCode.toNat = Except.ok 6) :=
  ⟨(c8_amended 4 (by decide)).1 (by decide), (c8_amended 7 (by decide)).2 (by decide)⟩

/-- C7 counterexample: `Label::into_bytes` performs no length check at
all — a 64-octet label (here 64 copies of byte `'a'`) is encoded without
any failure, emitting length octet 64; this falsifies "fails whenever
the label's byte length exceeds 63 octets". -/
theorem c7_counterexample :
    Label.into_bytes ⟨List.replicate 64 97⟩ = 64 :: List.replicate 64 97 := by
  decide

/-- C7 amended: label encoding emits one length octet followed by the
raw bytes and never fails; the length octet is the byte length truncated
`as u8`, so for every label of at most 63 octets (indeed up to 255) it
equals the actual length. -/
theorem c7_amended (l : Label) (h : l.bytes.length ≤ 63) :
    Label.into_bytes l = l.bytes.length :: l.bytes := by
  unfold Label.into_bytes
  rw [Nat.mod_eq_of_lt (by omega)]

/-- Witness for C7 at the one-byte label `"a"`. -/
theorem c7_witness : Label.into_bytes ⟨[97]⟩ = 1 :: [97] :=
  c7_amended ⟨[97]⟩ (by decide)

/-- C9: whenever the next length octet at a label position lies in
64..191 (top two bits `01` or `10`: neither a plain label length nor a
compression pointer), `DomainName::from_bytes` panics via the
out-of-bounds slice `label_bytes_buffer[..size]` of its fixed 63-byte
buffer instead of returning a decode error. -/
theorem c9_midrange_length_panics (data : List Nat) (pos : Nat) (b : Nat) (fuel : Nat)
    (hb : data.get? pos = some b) (h64 : 64 ≤ b) (h191 : b ≤ 191) (hfuel : 1 ≤ fuel) :
    DomainName.from_bytes fuel ⟨data, pos⟩ = PRes.panicked := by
  obtain ⟨f, rfl⟩ : ∃ f, fuel = f + 1 := ⟨fuel - 1, by omega⟩
  have hcomp : DomainName.is_compressed b = false := by
    unfold DomainName.is_compressed
    have : b &&& 192 ≤ b := Nat.and_le_left
    simp only [beq_eq_false_iff_ne, ne_eq]
    omega
  unfold DomainName.from_bytes DomainName.fromBytesLoop
  simp only [Cursor.readU8, hb, hcomp, Bool.false_eq_true, if_false]
  have hterm : ¬(b = DomainName.TERMINATOR) := by
    unfold DomainName.TERMINATOR
    omega
  have hmax : Label.MAX_LABEL_SIZE < b := by
    unfold Label.MAX_LABEL_SIZE
    omega
  simp [hterm, hmax]

/-- Witness for C9 at the concrete buffer `[0x64]` (length octet 100). -/
theorem c9_witness : DomainName.from_bytes 1 ⟨[100], 0⟩ = PRes.panicked :=
  c9_midrange_length_panics [100] 0 100 1 rfl (by decide) (by decide) (by decide)

/-- C3: on a decoded response with no Answers-section record of the
target type, no Additionals-section address record, no
Authorities-section NS record and no Answers-section CNAME record, the
resolver reaches the branch that executes the `panic!` macro — a process
abort, not a typed `NoUsableAnswer` error (no such error variant exists
anywhere in the source). -/
theorem c3_no_usable_answer_panics :
    resolveStep QType.A noPathResponse = ResolveAction.noUsablePath := by
  rfl

/-- `List.find?` returns the element at the first index satisfying the
predicate. -/
theorem find?_first_match {α : Type} (p : α → Bool) (l : List α) (i : Nat) (h : i < l.length)
    (hp : p (l.get ⟨i, h⟩) = true)
    (hprev : ∀ j (hj : j < l.length), j < i → p (l.get ⟨j, hj⟩) = false) :
    l.find? p = some (l.get ⟨i, h⟩) := by
  induction l generalizing i with
  | nil => exact absurd h (by simp)
  | cons a tl ih =>
    cases i with
    | zero =>
      have hp0 : p a = true := hp
      rw [List.find?_cons_of_pos _ hp0]
      rfl
    | succ k =>
      have ha : p a = false := hprev 0 (by omega) (by omega)
      rw [List.find?_cons_of_neg _ (by simp [ha])]
      exact ih k (by simpa using h) hp
        (fun j hj hlt => hprev (j + 1) (by simpa using hj) (by omega))

/-- C4 counterexample: on a response whose only usable record is an
Authorities-section NS record, while resolving with
`target_type = AAAA`, the code recursively resolves the NS name with the
original `record_type` (`AAAA`), not with `target_type = A` as the claim
states. -/
theorem c4_counterexample :
    resolveStep QType.AAAA nsReferralResponse =
      ResolveAction.resolveNS nsAuthorityRecord QType.AAAA ∧
    ResolveAction.resolveNS nsAuthorityRecord QType.AAAA ≠
      ResolveAction.resolveNS nsAuthorityRecord QType.A := by
  exact ⟨rfl, by decide⟩

/-- C4 amended: the step decision follows the fixed priority order —
(a) first Answers record of the target type → terminal answer;
(b) else first Additionals record of the target type → adopt as the next
nameserver; (c) else first Authorities NS record → nested resolution of
that NS name under the caller's own `record_type` (not `A`);
(d) else first Answers CNAME record → restart under `record_type`;
(e) else the panicking branch; and within a section the first matching
record wins (`find?` semantics of `get_record_by_type_from`). -/
theorem c4_amended (rt : QType) (resp : Message) :
    (∀ rr, resp.get_record_by_type_from rt .Answers = some rr →
      resolveStep rt resp = .answer rr) ∧
    (resp.get_record_by_type_from rt .Answers = none →
      ∀ rr, resp.get_record_by_type_from rt .Additionals = some rr →
        resolveStep rt resp = .adopt rr) ∧
    (resp.get_record_by_type_from rt .Answers = none →
      resp.get_record_by_type_from rt .Additionals = none →
      ∀ rr, resp.get_record_by_type_from .NS .Authorities = some rr →
        resolveStep rt resp = .resolveNS rr rt) ∧
    (resp.get_record_by_type_from rt .Answers = none →
      resp.get_record_by_type_from rt .Additionals = none →
      resp.get_record_by_type_from .NS .Authorities = none →
      ∀ rr, resp.get_record_by_type_from .CNAME .Answers = some rr →
        resolveStep rt resp = .resolveCname rr rt) ∧
    (resp.get_record_by_type_from rt .Answers = none →
      resp.get_record_by_type_from rt .Additionals = none →
      resp.get_record_by_type_from .NS .Authorities = none →
      resp.get_record_by_type_from .CNAME .Answers = none →
      resolveStep rt resp = .noUsablePath) ∧
    (∀ qtype section_ i (h : i < (resp.get_records section_).length),
      ((resp.get_records section_).get ⟨i, h⟩).qtype = qtype →
      (∀ j (hj : j < (resp.get_records section_).length), j < i →
        ((resp.get_records section_).get ⟨j, hj⟩).qtype ≠ qtype) →
      resp.get_record_by_type_from qtype section_ =
        some ((resp.get_records section_).get ⟨i, h⟩)) := by
  refine ⟨?_, ?_, ?_, ?_, ?_, ?_⟩
  · intro rr h1
    simp only [resolveStep, h1]
  · intro h1 rr h2
    simp only [resolveStep, h1, h2]
  · intro h1 h2 rr h3
    simp only [resolveStep, h1, h2, h3]
  · intro h1 h2 h3 rr h4
    simp only [resolveStep, h1, h2, h3, h4]
  · intro h1 h2 h3 h4
    simp only [resolveStep, h1, h2, h3, h4]
  · intro qtype section_ i h hq hprev
    unfold Message.get_record_by_type_from
    exact find?_first_match _ _ i h (by simp only [beq_iff_eq]; exact hq)
      (fun j hj hlt => by simp only [beq_eq_false_iff_ne]; exact hprev j hj hlt)

/-- Witness for C4: a response with a single A answer resolves to that
answer. -/
theorem c4_witness : resolveStep QType.A aAnswerResponse = ResolveAction.answer aAnswerRecord :=
  (c4_amended QType.A aAnswerResponse).1 aAnswerRecord rfl

/-- C6 counterexample: an A record whose declared rdata length is 2
makes `Record::from_bytes` panic (the slice `data[..4]` of a 2-byte
vector is out of bounds) instead of returning an error, falsifying
"record decoding returns an error, not a panic, when the declared length
does not match the type's requirement". -/
theorem c6_counterexample :
    Record.from_bytes 1 ⟨aShortRecordBytes, 0⟩ = PRes.panicked := by
  decide

/-- C6 amended: a successfully decoded record's rdata is interpreted by
type as the source actually does it — an A record's rdata is the first
4 bytes of the declared-length data (decoding panics, rather than
erroring, when fewer than 4 bytes are declared); an AAAA record falls
into the opaque-blob arm with NO 16-byte requirement (here a 5-byte AAAA
rdata decodes successfully); NS rdata is the decoded (possibly
compressed) `DomainName`'s canonical text form in bytes. -/
theorem c6_amended :
    (∀ fuel c rec c1, Record.from_bytes fuel c = PRes.ok (rec, c1) →
      rec.qtype = QType.A → rec.rdata.length = 4) ∧
    Record.from_bytes 1 ⟨aaaaShortRecordBytes, 0⟩ =
      PRes.ok (⟨⟨[]⟩, QType.AAAA, QClass.IN, 0, [1, 2, 3, 4, 5]⟩, ⟨aaaaShortRecordBytes, 16⟩) ∧
    Record.from_bytes 2 ⟨nsRecordBytes, 0⟩ =
      PRes.ok (⟨⟨[]⟩, QType.NS, QClass.IN, 0, [110, 115]⟩, ⟨nsRecordBytes, 15⟩) := by
  refine ⟨?_, by decide, by decide⟩
  intro fuel c rec c1 h hA
  unfold Record.from_bytes at h
  repeat' split at h
  all_goals try cases h
  all_goals try simp at hA
  all_goals try (exact absurd hA (by assumption))
  all_goals simp only [List.length_take]
  all_goals omega

/-- Witness for C6: a well-formed A record decodes with a 4-byte
rdata. -/
theorem c6_witness :
    (⟨⟨[]⟩, QType.A, QClass.IN, 0, [7, 7, 7, 7]⟩ : Record).rdata.length = 4 :=
  c6_amended.1 1 ⟨aRecordBytes, 0⟩ ⟨⟨[]⟩, QType.A, QClass.IN, 0, [7, 7, 7, 7]⟩
    ⟨aRecordBytes, 15⟩ (by decide) rfl

/-! List-reading helpers for the codec proofs. -/

theorem get?_append_cons {α : Type} (pre : List α) (x : α) (s : List α) :
    (pre ++ x :: s).get? pre.length = some x := by
  induction pre with
  | nil => rfl
  | cons a tl ih => simpa using ih

theorem drop_append_cons {α : Type} (pre : List α) (x : α) (s : List α) :
    (pre ++ x :: s).drop (pre.length + 1) = s := by
  induction pre with
  | nil => rfl
  | cons a tl ih => simpa using ih

theorem is_compressed_false_of_lt (b : Nat) (h : b < 192) :
    DomainName.is_compressed b = false := by
  unfold DomainName.is_compressed
  have : b &&& 192 ≤ b := Nat.and_le_left
  simp only [beq_eq_false_iff_ne, ne_eq]
  omega

/-- Reading one well-formed label from the buffer at its position. -/
theorem read_label_at (pre : List Nat) (l : Label) (s : List Nat)
    (hne : l.bytes.length ≠ 0) (hutf : validUtf8 l.bytes = true) :
    Label.read_label ⟨pre ++ l.bytes.length :: (l.bytes ++ s), pre.length + 1⟩ l.bytes.length =
      Except.ok (⟨l.bytes⟩, ⟨pre ++ l.bytes.length :: (l.bytes ++ s),
        pre.length + 1 + l.bytes.length⟩) := by
  unfold Label.read_label Cursor.readExact
  rw [if_neg hne, if_pos (by simp [List.length_append]; omega)]
  rw [drop_append_cons, List.take_left' rfl]
  simp [hutf]

/-- The decoding loop applied to the full encoding of a list of
well-formed labels (each nonempty, at most 63 octets, valid text)
followed by the terminator and arbitrary further bytes accumulates
exactly those labels and stops right after the terminator octet. -/
theorem fromBytesLoop_complete (labels : List Label) (pre post : List Nat) (acc : List Label)
    (fuel : Nat)
    (hwf : ∀ l ∈ labels, l.bytes.length ≠ 0 ∧ l.bytes.length ≤ 63 ∧ validUtf8 l.bytes = true)
    (hfuel : labels.length + 1 ≤ fuel) :
    DomainName.fromBytesLoop fuel
      ⟨pre ++ (labels.map Label.into_bytes).flatten ++ 0 :: post, pre.length⟩ acc =
    PRes.ok (acc ++ labels,
      ⟨pre ++ (labels.map Label.into_bytes).flatten ++ 0 :: post,
        (pre ++ (labels.map Label.into_bytes).flatten).length + 1⟩) := by
  induction labels generalizing pre acc fuel with
  | nil =>
    obtain ⟨f, rfl⟩ : ∃ f, fuel = f + 1 := ⟨fuel - 1, by omega⟩
    simp only [List.map_nil, List.flatten_nil, List.append_nil]
    unfold DomainName.fromBytesLoop
    simp only [Cursor.readU8, get?_append_cons]
    simp [DomainName.is_compressed, DomainName.TERMINATOR]
  | cons l ls ih =>
    obtain ⟨f, rfl⟩ : ∃ f, fuel = f + 1 := ⟨fuel - 1, by omega⟩
    obtain ⟨hne, hle, hutf⟩ := hwf l (List.mem_cons_self l ls)
    have hwf' : ∀ x ∈ ls, x.bytes.length ≠ 0 ∧ x.bytes.length ≤ 63 ∧ validUtf8 x.bytes = true :=
      fun x hx => hwf x (List.mem_cons_of_mem _ hx)
    have hlen : l.bytes.length % 256 = l.bytes.length := Nat.mod_eq_of_lt (by omega)
    have hbuf : pre ++ ((l :: ls).map Label.into_bytes).flatten ++ 0 :: post =
        pre ++ l.bytes.length ::
          (l.bytes ++ ((ls.map Label.into_bytes).flatten ++ 0 :: post)) := by
      simp [Label.into_bytes, hlen]
    rw [hbuf]
    unfold DomainName.fromBytesLoop
    simp only [Cursor.readU8, get?_append_cons]
    rw [if_neg (by rw [is_compressed_false_of_lt _ (by omega)]; simp)]
    rw [if_neg (by unfold DomainName.TERMINATOR; omega)]
    rw [if_neg (by unfold Label.MAX_LABEL_SIZE; omega)]
    rw [read_label_at pre l _ hne hutf]
    dsimp only
    have heta : (⟨l.bytes⟩ : Label) = l := rfl
    rw [heta]
    have step := ih (pre ++ l.bytes.length :: l.bytes) (acc ++ [l]) f hwf' (by
      simpa using Nat.le_of_succ_le_succ hfuel)
    have hdata : (pre ++ l.bytes.length :: l.bytes) ++ (ls.map Label.into_bytes).flatten ++
        0 :: post =
        pre ++ l.bytes.length :: (l.bytes ++ ((ls.map Label.into_bytes).flatten ++ 0 :: post)) := by
      simp
    have hpos : (pre ++ l.bytes.length :: l.bytes).length = pre.length + 1 + l.bytes.length := by
      simp [List.length_append]
      omega
    rw [hdata, hpos] at step
    rw [step]
    have hacc : (acc ++ [l]) ++ ls = acc ++ l :: ls := by simp
    have hlen2 : ((pre ++ l.bytes.length :: l.bytes) ++ (ls.map Label.into_bytes).flatten).length
        = (pre ++ ((l :: ls).map Label.into_bytes).flatten).length := by
      simp [Label.into_bytes, List.length_append]
    rw [hacc, hlen2]

/-- C1 counterexample: the domain name built from a single empty label
(0 octets, hence "at most 63 octets"; this is what `DomainName::new("")`
produces) does not round-trip: its encoding is `[0, 0]`, whose first
octet is the terminator, so decoding returns the label-less root name,
which differs from the original. -/
theorem c1_counterexample :
    DomainName.from_bytes 2 ⟨DomainName.into_bytes ⟨[⟨[]⟩]⟩, 0⟩ =
      PRes.ok (⟨[]⟩, ⟨[0, 0], 1⟩) ∧ (⟨[]⟩ : DomainName) ≠ ⟨[⟨[]⟩]⟩ := by
  decide

/-- C1 amended: every `DomainName` built from 1 to 127 NONEMPTY labels
of at most 63 octets each (valid text, as Rust labels are `String`s)
round-trips: decoding the cursor over `into_bytes(x)` returns `x`,
consuming the whole encoding. -/
theorem c1_roundtrip_amended (x : DomainName)
    (hcount1 : 1 ≤ x.labels.length) (hcount2 : x.labels.length ≤ 127)
    (hwf : ∀ l ∈ x.labels, l.bytes.length ≠ 0 ∧ l.bytes.length ≤ 63 ∧ validUtf8 l.bytes = true) :
    DomainName.from_bytes 128 ⟨x.into_bytes, 0⟩ =
      PRes.ok (x, ⟨x.into_bytes, x.into_bytes.length⟩) := by
  have h := fromBytesLoop_complete x.labels [] [] [] 128 hwf (by omega)
  simp only [List.nil_append, List.length_nil] at h
  have hb : (x.labels.map Label.into_bytes).flatten ++ 0 :: [] = x.into_bytes := rfl
  have hl : (x.labels.map Label.into_bytes).flatten.length + 1 = x.into_bytes.length := by
    simp [DomainName.into_bytes]
  rw [hb, hl] at h
  unfold DomainName.from_bytes
  rw [h]

/-- The decoding loop applied to a PROPER PREFIX of the encoding of a
list of well-formed labels (terminator included) fails with an IO-class
buffer-underrun error: either the next length octet is missing (`Io`) or
a label's bytes are cut short (`Label(Io)`). -/
theorem fromBytesLoop_truncated (labels : List Label) (pre : List Nat) (acc : List Label)
    (fuel j : Nat)
    (hwf : ∀ l ∈ labels, l.bytes.length ≠ 0 ∧ l.bytes.length ≤ 63 ∧ validUtf8 l.bytes = true)
    (hfuel : labels.length + 1 ≤ fuel)
    (hj : j < ((labels.map Label.into_bytes).flatten ++ [0]).length) :
    DomainName.fromBytesLoop fuel
      ⟨pre ++ ((labels.map Label.into_bytes).flatten ++ [0]).take j, pre.length⟩ acc =
        PRes.err .io ∨
    DomainName.fromBytesLoop fuel
      ⟨pre ++ ((labels.map Label.into_bytes).flatten ++ [0]).take j, pre.length⟩ acc =
        PRes.err (.label .io) := by
  induction labels generalizing pre acc fuel j with
  | nil =>
    obtain ⟨f, rfl⟩ : ∃ f, fuel = f + 1 := ⟨fuel - 1, by omega⟩
    have hj0 : j = 0 := by simpa using hj
    subst hj0
    left
    unfold DomainName.fromBytesLoop
    simp [Cursor.readU8, List.get?_eq_none.mpr (le_refl pre.length)]
  | cons l ls ih =>
    obtain ⟨f, rfl⟩ : ∃ f, fuel = f + 1 := ⟨fuel - 1, by omega⟩
    obtain ⟨hne, hle, hutf⟩ := hwf l (List.mem_cons_self l ls)
    have hwf' : ∀ x ∈ ls, x.bytes.length ≠ 0 ∧ x.bytes.length ≤ 63 ∧ validUtf8 x.bytes = true :=
      fun x hx => hwf x (List.mem_cons_of_mem _ hx)
    have hlen : l.bytes.length % 256 = l.bytes.length := Nat.mod_eq_of_lt (by omega)
    have henc : ((l :: ls).map Label.into_bytes).flatten ++ [0] =
        l.bytes.length :: (l.bytes ++ ((ls.map Label.into_bytes).flatten ++ [0])) := by
      simp [Label.into_bytes, hlen]
    rw [henc] at hj ⊢
    cases j with
    | zero =>
      left
      unfold DomainName.fromBytesLoop
      simp [Cursor.readU8, List.get?_eq_none.mpr (le_refl pre.length)]
    | succ jj =>
      rw [List.take_succ_cons]
      by_cases hcut : jj < l.bytes.length
      · -- the label's own bytes are cut short
        right
        have htk : (l.bytes ++ ((ls.map Label.into_bytes).flatten ++ [0])).take jj =
            l.bytes.take jj ++
              ((ls.map Label.into_bytes).flatten ++ [0]).take (jj - l.bytes.length) := by
          rw [List.take_append_eq_append_take]
        have hcut0 : jj - l.bytes.length = 0 := by omega
        rw [htk, hcut0, List.take_zero, List.append_nil]
        unfold DomainName.fromBytesLoop
        simp only [Cursor.readU8, get?_append_cons]
        rw [if_neg (by rw [is_compressed_false_of_lt _ (by omega)]; simp)]
        rw [if_neg (by unfold DomainName.TERMINATOR; omega)]
        rw [if_neg (by unfold Label.MAX_LABEL_SIZE; omega)]
        have hread : Label.read_label
            ⟨pre ++ l.bytes.length :: l.bytes.take jj, pre.length + 1⟩ l.bytes.length =
            Except.error .io := by
          unfold Label.read_label Cursor.readExact
          rw [if_neg hne, if_neg (by simp [List.length_append, List.length_take]; omega)]
        rw [hread]
      · -- the whole label is present; recurse into the tail
        push_neg at hcut
        have htk : (l.bytes ++ ((ls.map Label.into_bytes).flatten ++ [0])).take jj =
            l.bytes ++
              ((ls.map Label.into_bytes).flatten ++ [0]).take (jj - l.bytes.length) := by
          rw [List.take_append_eq_append_take, List.take_of_length_le hcut]
        rw [htk]
        unfold DomainName.fromBytesLoop
        simp only [Cursor.readU8, get?_append_cons]
        rw [if_neg (by rw [is_compressed_false_of_lt _ (by omega)]; simp)]
        rw [if_neg (by unfold DomainName.TERMINATOR; omega)]
        rw [if_neg (by unfold Label.MAX_LABEL_SIZE; omega)]
        rw [read_label_at pre l _ hne hutf]
        dsimp only
        have heta : (⟨l.bytes⟩ : Label) = l := rfl
        rw [heta]
        have step := ih (pre ++ l.bytes.length :: l.bytes) (acc ++ [l]) f
          (jj - l.bytes.length) hwf' (by simpa using Nat.le_of_succ_le_succ hfuel)
          (by simp only [List.length_append, List.length_cons] at hj ⊢; omega)
        have hdata : (pre ++ l.bytes.length :: l.bytes) ++
            ((ls.map Label.into_bytes).flatten ++ [0]).take (jj - l.bytes.length) =
            pre ++ l.bytes.length ::
              (l.bytes ++ ((ls.map Label.into_bytes).flatten ++ [0]).take (jj - l.bytes.length)) := by
          simp
        have hpos : (pre ++ l.bytes.length :: l.bytes).length = pre.length + 1 + l.bytes.length := by
          simp [List.length_append]
          omega
        rw [hdata, hpos] at step
        exact step

/-- Big-endian reassembly of a `QType`'s 16-bit wire value, and its
conversion back to the enum. -/
theorem qtype_u16 (rt : QType) :
    rt.toNat / 256 % 256 * 256 + rt.toNat % 256 = rt.toNat ∧
      QType.fromNat rt.toNat = some rt := by
  cases rt <;> exact ⟨by decide, rfl⟩

/-- Decoding a question from a buffer that ends inside the question's
bytes (name, QTYPE or QCLASS cut short) fails with an IO-class
buffer-underrun error. -/
theorem question_from_bytes_truncated (name : DomainName) (rt : QType) (pre : List Nat)
    (fuel k : Nat)
    (hwf : ∀ l ∈ name.labels, l.bytes.length ≠ 0 ∧ l.bytes.length ≤ 63 ∧ validUtf8 l.bytes = true)
    (hfuel : name.labels.length + 1 ≤ fuel)
    (hk : k < name.into_bytes.length + 4) :
    ∃ e, Question.from_bytes fuel
        ⟨pre ++ (name.into_bytes ++ u16be rt.toNat ++ u16be 1).take k, pre.length⟩ = PRes.err e ∧
      (e = QuestionErr.io ∨ e = .name .io ∨ e = .name (.label .io)) := by
  have hname : name.into_bytes =
      (name.labels.map Label.into_bytes).flatten ++ [0] := rfl
  have hnlen : name.into_bytes.length =
      (name.labels.map Label.into_bytes).flatten.length + 1 := by
    rw [hname]
    simp
  by_cases hsplit : k ≤ (name.labels.map Label.into_bytes).flatten.length
  · -- the name itself is truncated
    have htake : (name.into_bytes ++ u16be rt.toNat ++ u16be 1).take k =
        ((name.labels.map Label.into_bytes).flatten ++ [0]).take k := by
      rw [hname, List.append_assoc, List.take_append_eq_append_take,
        Nat.sub_eq_zero_of_le (by
          simp only [List.length_append, List.length_cons, List.length_nil]
          omega),
        List.take_zero, List.append_nil]
    rw [htake]
    have hd := fromBytesLoop_truncated name.labels pre [] fuel k hwf hfuel (by
      simp only [List.length_append, List.length_cons, List.length_nil]
      omega)
    unfold Question.from_bytes DomainName.from_bytes
    rcases hd with hd | hd <;> rw [hd]
    · exact ⟨.name .io, rfl, by simp⟩
    · exact ⟨.name (.label .io), rfl, by simp⟩
  · -- the name is complete; QTYPE or QCLASS is truncated
    push_neg at hsplit
    have htake : (name.into_bytes ++ u16be rt.toNat ++ u16be 1).take k =
        (name.labels.map Label.into_bytes).flatten ++
          0 :: ((u16be rt.toNat ++ u16be 1).take
            (k - ((name.labels.map Label.into_bytes).flatten.length + 1))) := by
      rw [hname, List.append_assoc, List.take_append_eq_append_take]
      rw [List.take_of_length_le (by
        simp only [List.length_append, List.length_cons, List.length_nil]
        omega)]
      simp [List.append_assoc]
    rw [htake, ← List.append_assoc]
    have hcomplete := fromBytesLoop_complete name.labels pre
      ((u16be rt.toNat ++ u16be 1).take
        (k - ((name.labels.map Label.into_bytes).flatten.length + 1))) [] fuel hwf hfuel
    unfold Question.from_bytes DomainName.from_bytes
    rw [hcomplete]
    dsimp only
    have hPlen : ((u16be rt.toNat ++ u16be 1).take
        (k - ((name.labels.map Label.into_bytes).flatten.length + 1))).length =
        k - ((name.labels.map Label.into_bytes).flatten.length + 1) := by
      simp only [List.length_take, u16be, List.length_append, List.length_cons,
        List.length_nil]
      omega
    by_cases h2 : k - ((name.labels.map Label.into_bytes).flatten.length + 1) < 2
    · -- QTYPE bytes are missing
      have hre : Cursor.readU16 ⟨pre ++ (name.labels.map Label.into_bytes).flatten ++
          0 :: ((u16be rt.toNat ++ u16be 1).take
            (k - ((name.labels.map Label.into_bytes).flatten.length + 1))),
          (pre ++ (name.labels.map Label.into_bytes).flatten).length + 1⟩ = none := by
        unfold Cursor.readU16 Cursor.readExact
        rw [if_neg (by omega), if_neg (by
          simp only [List.length_append, List.length_cons, hPlen]
          omega)]
      rw [hre]
      exact ⟨.io, rfl, by simp⟩
    · -- QTYPE parses; QCLASS bytes are missing
      push_neg at h2
      have hPsplit : (u16be rt.toNat ++ u16be 1).take
          (k - ((name.labels.map Label.into_bytes).flatten.length + 1)) =
          u16be rt.toNat ++ (u16be 1).take
            (k - ((name.labels.map Label.into_bytes).flatten.length + 1) - 2) := by
        rw [List.take_append_eq_append_take, List.take_of_length_le (by
          simp only [u16be, List.length_cons, List.length_nil]
          omega)]
        have : k - ((name.labels.map Label.into_bytes).flatten.length + 1) -
            (u16be rt.toNat).length =
            k - ((name.labels.map Label.into_bytes).flatten.length + 1) - 2 := by
          simp [u16be]
        rw [this]
      have hre : Cursor.readU16 ⟨pre ++ (name.labels.map Label.into_bytes).flatten ++
          0 :: ((u16be rt.toNat ++ u16be 1).take
            (k - ((name.labels.map Label.into_bytes).flatten.length + 1))),
          (pre ++ (name.labels.map Label.into_bytes).flatten).length + 1⟩ =
          some (rt.toNat, ⟨pre ++ (name.labels.map Label.into_bytes).flatten ++
            0 :: ((u16be rt.toNat ++ u16be 1).take
              (k - ((name.labels.map Label.into_bytes).flatten.length + 1))),
            (pre ++ (name.labels.map Label.into_bytes).flatten).length + 1 + 2⟩) := by
        unfold Cursor.readU16 Cursor.readExact
        rw [if_neg (by omega), if_pos (by
          simp only [List.length_append, List.length_cons, hPlen]
          omega)]
        rw [drop_append_cons]
        rw [hPsplit, List.take_left' (by simp [u16be])]
        dsimp only [u16be]
        rw [(qtype_u16 rt).1]
      rw [hre]
      dsimp only
      rw [(qtype_u16 rt).2]
      dsimp only
      have hre2 : Cursor.readU16 ⟨pre ++ (name.labels.map Label.into_bytes).flatten ++
          0 :: ((u16be rt.toNat ++ u16be 1).take
            (k - ((name.labels.map Label.into_bytes).flatten.length + 1))),
          (pre ++ (name.labels.map Label.into_bytes).flatten).length + 1 + 2⟩ = none := by
        unfold Cursor.readU16 Cursor.readExact
        rw [if_neg (by omega), if_neg (by
          simp only [List.length_append, List.length_cons, hPlen]
          omega)]
      rw [hre2]
      exact ⟨.io, rfl, by simp⟩

/-- Decoding a header from a buffer that starts with the 12 encoded
header bytes recovers the header and leaves the cursor at offset 12. -/
theorem header_from_bytes_head (id qv av uv dv : Nat) (flags : HeaderFlags) (X : List Nat)
    (hid : id < 65536) (hq : qv < 65536) (ha : av < 65536) (hu : uv < 65536)
    (hd : dv < 65536) :
    Header.from_bytes ⟨Header.into_bytes ⟨id, flags, qv, av, uv, dv⟩ ++ X, 0⟩ =
      Except.ok (⟨id, flags, qv, av, uv, dv⟩,
        ⟨Header.into_bytes ⟨id, flags, qv, av, uv, dv⟩ ++ X, 12⟩) := by
  have hflt := HeaderFlags.as_u16_lt flags
  have h12 : (Header.into_bytes ⟨id, flags, qv, av, uv, dv⟩).length = 12 := by
    simp [Header.into_bytes, u16be]
  unfold Header.from_bytes
  have hre : Cursor.readExact ⟨Header.into_bytes ⟨id, flags, qv, av, uv, dv⟩ ++ X, 0⟩ 12 =
      some (Header.into_bytes ⟨id, flags, qv, av, uv, dv⟩,
        ⟨Header.into_bytes ⟨id, flags, qv, av, uv, dv⟩ ++ X, 12⟩) := by
    unfold Cursor.readExact
    rw [if_neg (by omega), if_pos (by simp only [List.length_append, h12]; omega)]
    rw [List.drop_zero, List.take_left' h12]
  rw [hre]
  simp only [Header.into_bytes, u16be, List.cons_append, List.nil_append,
    List.getD_cons_zero, List.getD_cons_succ]
  rw [show flags.as_u16 / 256 % 256 * 256 + flags.as_u16 % 256 = flags.as_u16 from by omega]
  rw [HeaderFlags.from_u16_as_u16]
  dsimp only
  rw [show id / 256 % 256 * 256 + id % 256 = id from by omega]
  rw [show qv / 256 % 256 * 256 + qv % 256 = qv from by omega]
  rw [show av / 256 % 256 * 256 + av % 256 = av from by omega]
  rw [show uv / 256 % 256 * 256 + uv % 256 = uv from by omega]
  rw [show dv / 256 % 256 * 256 + dv % 256 = dv from by omega]

/-- C2 amended: truncating the encoded bytes of a query message built
by `Message::new_query` over a name whose labels are all nonempty (at
most 63 octets of valid text) at any proper prefix length makes
`Message::from_bytes` return a buffer-underrun ("Truncated"-class) IO
error through its result — in particular it neither succeeds, nor
panics, nor diverges.  The nonemptiness restriction is necessary: see
the counterexample at the root name. -/
theorem c2_truncation_returns_underrun (id : Nat) (auth rd : Bool) (rt : QType)
    (name : DomainName) (B : List Nat) (k fuel : Nat)
    (hid : id < 65536)
    (hwf : ∀ l ∈ name.labels, l.bytes.length ≠ 0 ∧ l.bytes.length ≤ 63 ∧ validUtf8 l.bytes = true)
    (hB : (Message.new_query id name rt auth rd).query_into_bytes = some B)
    (hk : k < B.length)
    (hfuel : name.labels.length + 1 ≤ fuel) :
    isUnderrunResult (Message.from_bytes fuel ⟨B.take k, 0⟩) = true := by
  have hBval : B = Header.into_bytes ⟨id, ⟨false, .Query, auth, false, rd, false, .NoError⟩,
      1, 0, 0, 0⟩ ++ (name.into_bytes ++ u16be rt.toNat ++ u16be 1) := by
    unfold Message.query_into_bytes Message.new_query Header.gen_query_header at hB
    simp only [List.length_cons, List.length_nil, List.length_eq_zero, and_true, if_pos,
      List.map_cons, List.map_nil, List.flatten_cons, List.flatten_nil, List.append_nil,
      and_self, Option.some.injEq, if_true, reduceIte] at hB
    rw [← hB]
    simp [Question.into_bytes, QClass.toNat, List.append_assoc]
  subst hBval
  have h12 : (Header.into_bytes ⟨id, ⟨false, .Query, auth, false, rd, false, .NoError⟩,
      1, 0, 0, 0⟩).length = 12 := by
    simp [Header.into_bytes, u16be]
  by_cases hk12 : k < 12
  · -- the fixed 12-byte header itself is cut short
    have hlen : ((Header.into_bytes ⟨id, ⟨false, .Query, auth, false, rd, false, .NoError⟩,
        1, 0, 0, 0⟩ ++ (name.into_bytes ++ u16be rt.toNat ++ u16be 1)).take k).length = k := by
      simp only [List.length_take, List.length_append]
      omega
    unfold Message.from_bytes Header.from_bytes Cursor.readExact
    rw [if_neg (by omega : ¬(12 = 0)), if_neg (by rw [hlen]; omega)]
    rfl
  · -- the header parses; the single question is cut short
    push_neg at hk12
    have htk : ((Header.into_bytes ⟨id, ⟨false, .Query, auth, false, rd, false, .NoError⟩,
        1, 0, 0, 0⟩ ++ (name.into_bytes ++ u16be rt.toNat ++ u16be 1)).take k) =
        Header.into_bytes ⟨id, ⟨false, .Query, auth, false, rd, false, .NoError⟩, 1, 0, 0, 0⟩ ++
          (name.into_bytes ++ u16be rt.toNat ++ u16be 1).take (k - 12) := by
      rw [List.take_append_eq_append_take, List.take_of_length_le (by rw [h12]; omega), h12]
    rw [htk]
    unfold Message.from_bytes
    rw [header_from_bytes_head id 1 0 0 0 ⟨false, .Query, auth, false, rd, false, .NoError⟩
      ((name.into_bytes ++ u16be rt.toNat ++ u16be 1).take (k - 12)) hid (by omega) (by omega)
      (by omega) (by omega)]
    dsimp only
    unfold Message.parseQuestions
    have hk' : k - 12 < name.into_bytes.length + 4 := by
      have hBlen : (Header.into_bytes ⟨id, ⟨false, .Query, auth, false, rd, false, .NoError⟩,
          1, 0, 0, 0⟩ ++ (name.into_bytes ++ u16be rt.toNat ++ u16be 1)).length =
          12 + (name.into_bytes.length + 4) := by
        simp only [List.length_append, h12, u16be, List.length_cons, List.length_nil]
      rw [hBlen] at hk
      omega
    obtain ⟨e, he, hcls⟩ := question_from_bytes_truncated name rt
      (Header.into_bytes ⟨id, ⟨false, .Query, auth, false, rd, false, .NoError⟩, 1, 0, 0, 0⟩)
      fuel (k - 12) hwf hfuel hk'
    rw [h12] at he
    rw [he]
    rcases hcls with rfl | rfl | rfl <;> rfl

/-- C2 counterexample: the query for the ROOT name — a single empty
label, which the data model admits ("root name = single empty label")
and the encoder happily encodes — falsifies the claim as stated:
truncating its 18-byte encoding to 15 bytes makes `Message::from_bytes`
return an unknown-QTYPE error (`Error::Question(Type(0))`): the name
decode stops at the first zero octet, and the next two bytes parse as
QTYPE 0, which is not a recognized code.  That is a typed decode error,
but NOT a Truncated-class (buffer-underrun) one. -/
theorem c2_counterexample :
    (Message.new_query 7 ⟨[⟨[]⟩]⟩ QType.A false true).query_into_bytes =
      some rootQueryBytes ∧
    Message.from_bytes 2 ⟨rootQueryBytes.take 15, 0⟩ =
      PRes.err (.question (.qtype 0)) ∧
    isUnderrunResult (Message.from_bytes 2 ⟨rootQueryBytes.take 15, 0⟩) = false := by
  refine ⟨by decide, by decide, by decide⟩

/-- Witness for C2: the query for the name `"ab"` (A record, id 7)
encodes to 20 bytes; truncating to the first 13 bytes (header plus one
length octet) yields a buffer-underrun error. -/
theorem c2_witness :
    isUnderrunResult (Message.from_bytes 2
      ⟨(Header.into_bytes ⟨7, ⟨false, .Query, false, false, true, false, .NoError⟩,
          1, 0, 0, 0⟩ ++
        (DomainName.into_bytes ⟨[⟨[97, 98]⟩]⟩ ++ u16be (QType.A.toNat) ++ u16be 1)).take 13,
        0⟩) = true := by
  have hB : (Message.new_query 7 ⟨[⟨[97, 98]⟩]⟩ QType.A false true).query_into_bytes =
      some (Header.into_bytes ⟨7, ⟨false, .Query, false, false, true, false, .NoError⟩,
        1, 0, 0, 0⟩ ++
        (DomainName.into_bytes ⟨[⟨[97, 98]⟩]⟩ ++ u16be (QType.A.toNat) ++ u16be 1)) := by
    decide
  exact c2_truncation_returns_underrun 7 false true QType.A ⟨[⟨[97, 98]⟩]⟩ _ 13 2
    (by decide) (by decide) hB (by decide) (by decide)

/-- Witness for C1 at the concrete name `"ab.c"`. -/
theorem c1_witness :
    DomainName.from_bytes 128 ⟨DomainName.into_bytes ⟨[⟨[97, 98]⟩, ⟨[99]⟩]⟩, 0⟩ =
      PRes.ok (⟨[⟨[97, 98]⟩, ⟨[99]⟩]⟩,
        ⟨DomainName.into_bytes ⟨[⟨[97, 98]⟩, ⟨[99]⟩]⟩,
          (DomainName.into_bytes ⟨[⟨[97, 98]⟩, ⟨[99]⟩]⟩).length⟩) :=
  c1_roundtrip_amended ⟨[⟨[97, 98]⟩, ⟨[99]⟩]⟩ (by decide) (by decide) (by decide)

end Dirt
